import Mathlib

/-!
Verification of the `3up3down` baseball-stats pipeline
(`pa_data.py`, `pa_model.py`, `sim_rates.py`).

Strings coming from the data source are modelled as `List Char` (Python
`str` restricted to the character operations the code uses: ASCII
`lower`, whitespace `strip`, substring membership `in`, equality).
A missing value (`pd.isna`) is modelled as `none : Option (List Char)`.
Floating point frequencies and probabilities are modelled as exact
rationals `ℚ`.
-/

namespace BaseballStats

/-- Whitespace test matching Python `str.strip`'s default character class
(ASCII fragment: space, tab, newline, carriage return, vertical tab,
form feed), expressed on code points. -/
def pyIsSpace (c : Char) : Bool :=
  c.toNat = 32 || c.toNat = 9 || c.toNat = 10 || c.toNat = 13 ||
    c.toNat = 11 || c.toNat = 12

/-- Python `str.lower` on one character (ASCII fragment): uppercase
letters `A`..`Z` shift down by 32 code points, everything else is kept. -/
def pyToLower (c : Char) : Char :=
  if 65 ≤ c.toNat ∧ c.toNat ≤ 90 then Char.ofNat (c.toNat + 32) else c

/-- Python `s.lower()` (ASCII fragment): characterwise `pyToLower`. -/
def pyLower (s : List Char) : List Char := s.map pyToLower

/-- Python `s.strip()`: remove leading whitespace, then trailing
whitespace. -/
def pyStrip (s : List Char) : List Char :=
  List.rdropWhile pyIsSpace (List.dropWhile pyIsSpace s)

/-- Python `pat.isPrefixOf`-style test: does `s` start with `pat`? -/
def startsWithStr : List Char → List Char → Bool
  | _, [] => true
  | [], _ :: _ => false
  | a :: s, b :: p => (a == b) && startsWithStr s p

/-- Python `pat in s` substring test. -/
def containsStr : List Char → List Char → Bool
  | [], pat => pat.isEmpty
  | s@(_ :: rest), pat => startsWithStr s pat || containsStr rest pat

/-- The eight outcome categories, in the fixed order used throughout
(`OUTCOME_ORDER` in `pa_data.py`). -/
def OUTCOME_ORDER : List String :=
  ["Walk", "HBP", "Single", "Double", "Triple", "HR", "Strikeout", "Out"]

/-- The ordered rule body of `_event_to_outcome` from `pa_data.py`,
applied to the already normalized (lowercased, stripped) string `e`.
The redundant `or e == "double_play"` / `or e == "triple_play"`
disjuncts of the source are kept. -/
def outcome_rules (e : List Char) : String :=
  if e == ("walk".data) then "Walk"
  else if e == ("hit_by_pitch".data) then "HBP"
  else if e == ("single".data) then "Single"
  else if containsStr e ("double_play".data) || e == ("double_play".data) then "Out"
  else if e == ("double".data) then "Double"
  else if containsStr e ("triple_play".data) || e == ("triple_play".data) then "Out"
  else if e == ("triple".data) then "Triple"
  else if e == ("home_run".data) then "HR"
  else if containsStr e ("strikeout".data) then "Strikeout"
  else "Out"

/-- `_event_to_outcome` from `pa_data.py`: map a raw Statcast event
string (possibly missing) to a simulator outcome category.
`pd.isna(event)` is the `none` case; otherwise the source sets
`e = event.lower().strip()` and runs the ordered rules on `e`. -/
def _event_to_outcome (event : Option (List Char)) : String :=
  match event with
  | none => "Out"
  | some ev => outcome_rules (pyLower (pyStrip ev))

/-! ### Normalization facts: `lower` and `strip` on the ASCII model -/

lemma pyIsSpace_eq_false_of_ge (c : Char) (h : 65 ≤ c.toNat) : pyIsSpace c = false := by
  simp only [pyIsSpace, Bool.or_eq_false_iff, decide_eq_false_iff_not]
  omega

lemma lower_shift_facts : ∀ n, n < 91 → 65 ≤ n →
    97 ≤ (Char.ofNat (n + 32)).toNat ∧ (Char.ofNat (n + 32)).toNat = n + 32 := by
  decide

lemma pyIsSpace_pyToLower (c : Char) : pyIsSpace (pyToLower c) = pyIsSpace c := by
  unfold pyToLower
  split
  next h =>
    have h97 := (lower_shift_facts c.toNat (by omega) h.1).1
    rw [pyIsSpace_eq_false_of_ge _ (by omega), pyIsSpace_eq_false_of_ge c (by omega)]
  next h => rfl

lemma pyToLower_pyToLower (c : Char) : pyToLower (pyToLower c) = pyToLower c := by
  simp only [pyToLower]
  split_ifs with h1 h2
  · have hv := lower_shift_facts c.toNat (by omega) h1.1
    omega
  · rfl
  · rfl

lemma pyLower_idem (s : List Char) : pyLower (pyLower s) = pyLower s := by
  induction s with
  | nil => rfl
  | cons a t ih =>
    simp only [pyLower] at ih
    simp only [pyLower, List.map_cons, pyToLower_pyToLower, ih]

lemma pyLower_dropWhile (s : List Char) :
    List.dropWhile pyIsSpace (pyLower s) = pyLower (List.dropWhile pyIsSpace s) := by
  induction s with
  | nil => rfl
  | cons a t ih =>
    simp only [pyLower, List.map_cons, List.dropWhile_cons, pyIsSpace_pyToLower]
    cases h : pyIsSpace a with
    | true => simpa [pyLower] using ih
    | false => rfl

lemma pyLower_rdropWhile (s : List Char) :
    List.rdropWhile pyIsSpace (pyLower s) = pyLower (List.rdropWhile pyIsSpace s) := by
  unfold List.rdropWhile
  rw [show (pyLower s).reverse = pyLower s.reverse by simp [pyLower],
    pyLower_dropWhile]
  simp [pyLower]

lemma pyStrip_pyLower (s : List Char) : pyStrip (pyLower s) = pyLower (pyStrip s) := by
  unfold pyStrip
  rw [pyLower_dropWhile, pyLower_rdropWhile]

lemma dropWhile_rdropWhile_dropWhile (p : Char → Bool) (l : List Char) :
    List.dropWhile p (List.rdropWhile p (List.dropWhile p l)) =
      List.rdropWhile p (List.dropWhile p l) := by
  rw [List.dropWhile_eq_self_iff]
  intro hl hp
  have hpre : List.rdropWhile p (List.dropWhile p l) <+: List.dropWhile p l :=
    List.rdropWhile_prefix _ _
  have hlen : 0 < (List.dropWhile p l).length :=
    lt_of_lt_of_le hl hpre.length_le
  have hget := List.IsPrefix.getElem hpre hl
  have hself : List.dropWhile p (List.dropWhile p l) = List.dropWhile p l :=
    List.dropWhile_idempotent _ _
  have hhd := (List.dropWhile_eq_self_iff.mp hself) hlen
  rw [List.get_eq_getElem, hget] at hp
  exact hhd (by simpa [List.get_eq_getElem] using hp)

lemma pyStrip_idem (s : List Char) : pyStrip (pyStrip s) = pyStrip s := by
  unfold pyStrip
  rw [dropWhile_rdropWhile_dropWhile]
  exact List.rdropWhile_idempotent _ _

lemma normalize_idem (s : List Char) :
    pyLower (pyStrip (pyLower (pyStrip s))) = pyLower (pyStrip s) := by
  rw [pyStrip_pyLower, pyStrip_idem, pyLower_idem]

/-- An ordered classification rule: a matching predicate on the
normalized event string, and the resulting outcome category. -/
def OutcomeRule : Type := (List Char → Bool) × String

/-- Spec 4.1, "exact match `pat` → `out`" (case-insensitivity is the
normalization applied before the rules run). -/
def exactRule (pat : List Char) (out : String) : OutcomeRule :=
  (fun e => e == pat, out)

/-- Spec 4.1, "string contains `pat` → `out`". -/
def substrRule (pat : List Char) (out : String) : OutcomeRule :=
  (fun e => containsStr e pat, out)

/-- Spec section 4.1, rules 2-10 in the spec's order, written from the
spec's words for comparison with `outcome_rules`. -/
def specRuleList : List OutcomeRule :=
  [exactRule ("walk".data) "Walk",
   exactRule ("hit_by_pitch".data) "HBP",
   exactRule ("single".data) "Single",
   substrRule ("double_play".data) "Out",
   exactRule ("double".data) "Double",
   substrRule ("triple_play".data) "Out",
   exactRule ("triple".data) "Triple",
   exactRule ("home_run".data) "HR",
   substrRule ("strikeout".data) "Strikeout"]

/-- First-match-wins evaluation of an ordered rule list; when no rule
matches, spec rule 11 ("anything else") yields "Out". -/
def firstMatchEval : List OutcomeRule → List Char → String
  | [], _ => "Out"
  | r :: rest, e => if r.1 e then r.2 else firstMatchEval rest e

/-- The spec's classifier: rule 1 sends null/missing to "Out",
otherwise the eleven ordered rules run on the normalized string. -/
def spec_classifier (event : Option (List Char)) : String :=
  match event with
  | none => "Out"
  | some ev => firstMatchEval specRuleList (pyLower (pyStrip ev))

lemma startsWithStr_refl (l : List Char) : startsWithStr l l = true := by
  induction l with
  | nil => rfl
  | cons a s ih => simp [startsWithStr, ih]

lemma containsStr_refl (l : List Char) : containsStr l l = true := by
  cases l with
  | nil => rfl
  | cons a s => simp [containsStr, startsWithStr_refl]

/-- The source's `"pat" in e or e == "pat"` test collapses to the
substring test alone, because every string contains itself. -/
lemma containsStr_or_beq (e pat : List Char) :
    (containsStr e pat || e == pat) = containsStr e pat := by
  cases h : containsStr e pat with
  | true => simp
  | false =>
    simp only [Bool.false_or]
    rw [beq_eq_false_iff_ne]
    intro he
    rw [he, containsStr_refl] at h
    exact Bool.noConfusion h

/-- Every value of `outcome_rules` is one of the eight categories. -/
lemma outcome_rules_mem (e : List Char) : outcome_rules e ∈ OUTCOME_ORDER := by
  unfold outcome_rules
  split_ifs <;> decide

/-- Every value of `_event_to_outcome` is one of the eight categories. -/
lemma event_to_outcome_mem (ev : Option (List Char)) :
    _event_to_outcome ev ∈ OUTCOME_ORDER := by
  cases ev with
  | none => decide
  | some e => exact outcome_rules_mem _

example : _event_to_outcome (some ("walk".data)) = "Walk" := by decide
example : _event_to_outcome (some ("strikeout_double_play".data)) = "Out" := by decide
example : _event_to_outcome (some ("  Walk ".data)) = "Walk" := by decide
example : _event_to_outcome (some ("field_error".data)) = "Out" := by decide

/-- C1 counterexample: the classifier maps "strikeout_double_play" to
"Out" (the `double_play` substring rule fires first), not to
"Strikeout" as the claim states. -/
theorem c1_strikeout_double_play_counterexample :
    _event_to_outcome (some ("strikeout_double_play".data)) = "Out" ∧
      ¬ _event_to_outcome (some ("strikeout_double_play".data)) = "Strikeout" := by
  decide

/-- C1 (amended): on the test corpus "strikeout_double_play",
"field_error", "sac_fly", "grounded_into_double_play" the classifier
`_event_to_outcome` returns Out, Out, Out, Out respectively — the two
double-play strings hit the `double_play` substring rule, the other two
fall through to the default. -/
theorem c1_event_corpus :
    _event_to_outcome (some ("strikeout_double_play".data)) = "Out" ∧
      _event_to_outcome (some ("field_error".data)) = "Out" ∧
      _event_to_outcome (some ("sac_fly".data)) = "Out" ∧
      _event_to_outcome (some ("grounded_into_double_play".data)) = "Out" := by
  decide

/-- C2: `_event_to_outcome` evaluates exactly the spec's eleven ordered
rules with first match winning (null → Out; exact matches walk,
hit_by_pitch, single, double, triple, home_run; `double_play` and
`triple_play` substrings → Out before the corresponding exact rules;
`strikeout` substring → Strikeout; default Out), and it is total: every
input lands in exactly one of the eight categories. -/
theorem c2_classifier_spec_rules :
    (∀ ev, _event_to_outcome ev = spec_classifier ev) ∧
      ∀ ev, _event_to_outcome ev ∈ OUTCOME_ORDER := by
  constructor
  · intro ev
    cases ev with
    | none => rfl
    | some e =>
      simp only [_event_to_outcome, spec_classifier, specRuleList, firstMatchEval,
        exactRule, substrRule, outcome_rules, containsStr_or_beq]
  · exact event_to_outcome_mem

/-- C9: the classifier's result is invariant under letter case and
leading/trailing whitespace: classifying a string equals classifying
its lowercased, stripped form, because the input is normalized before
any rule is tried; in particular "  Walk " classifies as Walk. -/
theorem c9_classifier_normalization_invariant :
    (∀ ev : List Char,
      _event_to_outcome (some ev) =
        _event_to_outcome (some (pyLower (pyStrip ev)))) ∧
      _event_to_outcome (some ("  Walk ".data)) = "Walk" := by
  constructor
  · intro ev
    show outcome_rules _ = outcome_rules _
    rw [normalize_idem]
  · decide

/-! ### `sim_rates.py`: the Probability Server

The filesystem state read by `sim_rates.py` is modelled explicitly: the
optional persisted rate file (`pa_outcome_rates.json`, a JSON object,
here an association list of category/probability pairs) and the
optional persisted model artifact (`pa_outcome_model.pkl`).  The
pickled classifier's posterior output (`outcome_probs_for_sim` run on
the loaded `clf`, `le`, `meta`) is modelled as an opaque function of
the two derived features `count_id` and `platoon_same`; the claims
below only concern the empirical (non-model) path, which is embedded
in full. -/

/-- The persisted model artifact: its observable behaviour at query
time is the probability map it produces from `(count_id,
platoon_same)`. -/
structure ModelBundle where
  predict : Int → Int → List (String × ℚ)

/-- The files `sim_rates.py` may find next to itself. -/
structure SimFiles where
  rates_file : Option (List (String × ℚ))
  model_file : Option ModelBundle

/-- A raised exception, as `sim_rates.py` distinguishes them:
`FileNotFoundError` is the only one caught. -/
inductive SimError where
  | fileNotFound : SimError
deriving DecidableEq

/-- `load_league_rates` from `sim_rates.py`: return the parsed rate
file, or raise `FileNotFoundError` when it does not exist. -/
def load_league_rates (fs : SimFiles) : Except SimError (List (String × ℚ)) :=
  match fs.rates_file with
  | none => Except.error SimError.fileNotFound
  | some r => Except.ok r

/-- `load_outcome_model` from `sim_rates.py`: return the unpickled
model bundle, or raise `FileNotFoundError` when it does not exist. -/
def load_outcome_model (fs : SimFiles) : Except SimError ModelBundle :=
  match fs.model_file with
  | none => Except.error SimError.fileNotFound
  | some m => Except.ok m

/-- `get_outcome_probs` from `sim_rates.py`: when `use_ml` is set, try
the model path (derive `count_id = count_balls*4 + count_strikes` and
`platoon_same`), catching only `FileNotFoundError` and falling through
to the league rates; otherwise serve the league rates directly. -/
def get_outcome_probs (fs : SimFiles) (count_balls count_strikes : Int)
    (same_hand : Bool) (use_ml : Bool) : Except SimError (List (String × ℚ)) :=
  if use_ml then
    match load_outcome_model fs with
    | Except.ok m =>
        Except.ok (m.predict (count_balls * 4 + count_strikes)
          (if same_hand then 1 else 0))
    | Except.error SimError.fileNotFound => load_league_rates fs
  else load_league_rates fs

/-- C3: with a persisted rate table, `use_ml = False` returns exactly
the stored mapping unchanged, and with `use_ml = True` but no model
artifact the result is identical to the `use_ml = False` case. -/
theorem c3_rate_file_passthrough_and_fallback
    (fs : SimFiles) (r : List (String × ℚ)) (b s : Int) (h : Bool)
    (hr : fs.rates_file = some r) :
    get_outcome_probs fs b s h false = Except.ok r ∧
      (fs.model_file = none →
        get_outcome_probs fs b s h true = get_outcome_probs fs b s h false) := by
  constructor
  · simp [get_outcome_probs, load_league_rates, hr]
  · intro hm
    simp [get_outcome_probs, load_outcome_model, hm]

/-- The rate file of the spec's query scenario (section 8):
`{"Walk":0.08, "HBP":0.01, "Single":0.15, "Double":0.05,
"Triple":0.005, "HR":0.03, "Strikeout":0.22, "Out":0.455}`. -/
def exampleRates : List (String × ℚ) :=
  [("Walk", 8/100), ("HBP", 1/100), ("Single", 15/100),
   ("Double", 5/100), ("Triple", 5/1000), ("HR", 3/100),
   ("Strikeout", 22/100), ("Out", 455/1000)]

/-- C3 witness: the spec's example rate file, with no model artifact
present, is served unchanged on both paths. -/
theorem c3_rate_file_passthrough_and_fallback_witness :
    get_outcome_probs ⟨some exampleRates, none⟩ 3 2 true false =
        Except.ok exampleRates ∧
      get_outcome_probs ⟨some exampleRates, none⟩ 3 2 true true =
        get_outcome_probs ⟨some exampleRates, none⟩ 3 2 true false :=
  ⟨(c3_rate_file_passthrough_and_fallback ⟨some exampleRates, none⟩
      exampleRates 3 2 true rfl).1,
   (c3_rate_file_passthrough_and_fallback ⟨some exampleRates, none⟩
      exampleRates 3 2 true rfl).2 rfl⟩

/-- C10: on the empirical path the result of `get_outcome_probs` is
the same for all queried counts and handedness — the context inputs
are neither validated nor used.  With `use_ml = False` this holds on
every filesystem, model artifact present or not; with `use_ml = True`
it holds whenever the model artifact is missing. -/
theorem c10_empirical_path_ignores_context
    (fs : SimFiles) (b s b' s' : Int) (h h' : Bool) :
    get_outcome_probs fs b s h false = get_outcome_probs fs b' s' h' false ∧
      (fs.model_file = none →
        get_outcome_probs fs b s h true = get_outcome_probs fs b' s' h' true) := by
  constructor
  · rfl
  · intro hm
    simp [get_outcome_probs, load_outcome_model, hm]

/-- C10 witness: with a filesystem holding only a rate file, two
maximally different queries get identical answers on both empirical
paths. -/
theorem c10_empirical_path_ignores_context_witness :
    get_outcome_probs ⟨some [("Out", 1)], none⟩ 0 0 false false =
        get_outcome_probs ⟨some [("Out", 1)], none⟩ 3 2 true false ∧
      get_outcome_probs ⟨some [("Out", 1)], none⟩ 0 0 false true =
        get_outcome_probs ⟨some [("Out", 1)], none⟩ 3 2 true true :=
  ⟨(c10_empirical_path_ignores_context ⟨some [("Out", 1)], none⟩ 0 0 3 2 false true).1,
   (c10_empirical_path_ignores_context ⟨some [("Out", 1)], none⟩ 0 0 3 2 false true).2 rfl⟩

/-! ### `pa_model.py`: the Rate Aggregator -/

/-- One labeled plate appearance row as `league_rates_from_data` reads
it: the `outcome` column (already populated by
`map_events_to_outcomes` on the load path; the source's relabeling
branch recomputes the same per-row classifier otherwise) and the
`platoon_matchup` column ("same" / "opposite"). -/
structure LabeledPA where
  outcome : String
  platoon_matchup : String
deriving DecidableEq

/-- The optional platoon filter step of `league_rates_from_data`:
`pas[pas["platoon_matchup"] == platoon_filter]` when a filter is given,
all rows otherwise. -/
def platoon_rows (pas : List LabeledPA)
    (platoon_filter : Option String) : List LabeledPA :=
  match platoon_filter with
  | none => pas
  | some f => pas.filter (fun r => r.platoon_matchup == f)

/-- `league_rates_from_data` from `pa_model.py`: optionally filter the
rows to one platoon matchup, then for each category in `OUTCOME_ORDER`
record `count / n` — or `0.0` when `n` is zero (`... / n if n else
0.0`). -/
def league_rates_from_data (pas : List LabeledPA)
    (platoon_filter : Option String) : List (String × ℚ) :=
  let rows := platoon_rows pas platoon_filter
  let n := rows.length
  OUTCOME_ORDER.map (fun o =>
    (o, if n = (0 : ℕ) then (0 : ℚ)
        else ((rows.filter (fun r => r.outcome == o)).length : ℚ) / (n : ℚ)))

/-- C4: whenever the optionally filtered row set is empty, the rate
aggregator returns the mapping sending every one of the eight
categories to frequency 0.0, with no division-by-zero or other
failure. -/
theorem c4_empty_filter_all_zero (pas : List LabeledPA) (pf : Option String)
    (hempty : platoon_rows pas pf = []) :
    league_rates_from_data pas pf = OUTCOME_ORDER.map (fun o => (o, (0 : ℚ))) := by
  simp [league_rates_from_data, hempty]

/-- C4 witness: the "same" platoon filter applied to a dataset with
zero same-handed rows yields the all-zero mapping. -/
theorem c4_empty_filter_all_zero_witness :
    league_rates_from_data
        [⟨"Out", "opposite"⟩, ⟨"Walk", "opposite"⟩] (some "same") =
      OUTCOME_ORDER.map (fun o => (o, (0 : ℚ))) :=
  c4_empty_filter_all_zero [⟨"Out", "opposite"⟩, ⟨"Walk", "opposite"⟩]
    (some "same") (by decide)

lemma sum_map_indicator (L : List String) (a : String) :
    (L.map (fun o => if a = o then (1 : ℕ) else 0)).sum = L.count a := by
  induction L with
  | nil => rfl
  | cons b t ih =>
    simp only [List.map_cons, List.sum_cons, List.count_cons, ih]
    by_cases hab : a = b
    · simp [hab, Nat.add_comm]
    · simp [hab, Ne.symm hab]

lemma filter_outcome_cons (r : LabeledPA) (t : List LabeledPA) (o : String) :
    ((r :: t).filter (fun x => x.outcome == o)).length =
      (t.filter (fun x => x.outcome == o)).length +
        (if r.outcome = o then 1 else 0) := by
  by_cases hro : r.outcome = o
  · simp [List.filter_cons, hro, Nat.add_comm]
  · simp [List.filter_cons, hro]

lemma sum_map_add_nat {α : Type} (L : List α) (f g : α → ℕ) :
    (L.map (fun x => f x + g x)).sum = (L.map f).sum + (L.map g).sum := by
  induction L with
  | nil => rfl
  | cons b t ih => simp [ih]; omega

/-- The per-category counts of the aggregator partition the row set:
they sum to the number of rows, provided every row's label is one of
the eight categories. -/
lemma sum_outcome_counts (pas : List LabeledPA)
    (h : ∀ r ∈ pas, r.outcome ∈ OUTCOME_ORDER) :
    (OUTCOME_ORDER.map
        (fun o => (pas.filter (fun r => r.outcome == o)).length)).sum
      = pas.length := by
  induction pas with
  | nil => simp
  | cons r t ih =>
    have hr : r.outcome ∈ OUTCOME_ORDER := h r (List.mem_cons_self r t)
    have ht : ∀ x ∈ t, x.outcome ∈ OUTCOME_ORDER :=
      fun x hx => h x (List.mem_cons_of_mem r hx)
    simp only [filter_outcome_cons, sum_map_add_nat, ih ht, sum_map_indicator]
    have hone : OUTCOME_ORDER.count r.outcome = 1 :=
      List.count_eq_one_of_mem (by decide) hr
    simp [hone, List.length_cons]

lemma sum_outcome_div (L : List String) (pas : List LabeledPA) (d : ℚ) :
    (L.map (fun o =>
        ((pas.filter (fun r => r.outcome == o)).length : ℚ) / d)).sum =
      ((L.map (fun o => (pas.filter (fun r => r.outcome == o)).length)).sum : ℚ) / d := by
  induction L with
  | nil => simp
  | cons b t ih => simp [ih, add_div]

/-- C5: on any non-empty row set whose labels come from the event
classifier, the empirical rate table assigns every category a
frequency in [0,1], and the eight frequencies sum to exactly 1. -/
theorem c5_rates_form_distribution (pas : List LabeledPA) (hne : pas ≠ [])
    (hlab : ∀ r ∈ pas, ∃ ev, r.outcome = _event_to_outcome ev) :
    (∀ p ∈ league_rates_from_data pas none, 0 ≤ p.2 ∧ p.2 ≤ 1) ∧
      ((league_rates_from_data pas none).map (fun p => p.2)).sum = 1 := by
  have hmem : ∀ r ∈ pas, r.outcome ∈ OUTCOME_ORDER := by
    intro r hr
    obtain ⟨ev, hev⟩ := hlab r hr
    rw [hev]
    exact event_to_outcome_mem ev
  have hn : pas.length ≠ 0 := fun h => hne (List.length_eq_zero.mp h)
  have hnq : ((pas.length : ℚ)) ≠ 0 := Nat.cast_ne_zero.mpr hn
  have hnpos : (0 : ℚ) < (pas.length : ℚ) := by
    have := Nat.pos_of_ne_zero hn
    exact_mod_cast this
  constructor
  · intro p hp
    simp only [league_rates_from_data, platoon_rows, if_neg hn, List.mem_map] at hp
    obtain ⟨o, _, rfl⟩ := hp
    dsimp only
    constructor
    · positivity
    · rw [div_le_one hnpos]
      exact_mod_cast List.length_filter_le _ pas
  · simp only [league_rates_from_data, platoon_rows, if_neg hn, List.map_map,
      Function.comp_def]
    rw [sum_outcome_div, sum_outcome_counts pas hmem, div_self hnq]

/-- C5 witness: a two-row classifier-labeled dataset has frequencies
summing to exactly 1. -/
theorem c5_rates_form_distribution_witness :
    ((league_rates_from_data
        [⟨"Walk", "same"⟩, ⟨"Out", "opposite"⟩] none).map (fun p => p.2)).sum = 1 :=
  (c5_rates_form_distribution [⟨"Walk", "same"⟩, ⟨"Out", "opposite"⟩]
    (by decide)
    (by
      intro r hr
      simp only [List.mem_cons, List.not_mem_nil, or_false] at hr
      rcases hr with h | h
      · exact ⟨some ("walk".data), by rw [h]; decide⟩
      · exact ⟨none, by rw [h]; rfl⟩)).2

/-! ### `pa_data.py`: the Dataset Loader -/

/-- `pd.to_numeric(x, errors="coerce").fillna(0).astype(int)` applied
to one cell.  A cell is modelled by its parse result: `none` when the
value is unparseable (`to_numeric` yields NaN, `fillna` turns it into
0), `some q` when it parses to the numeric value `q`, which
`astype(int)` truncates toward zero. -/
def coerce_count (v : Option ℚ) : Int :=
  match v with
  | none => 0
  | some q => q.num.tdiv (q.den : Int)

/-- One raw Statcast row as `load_pa_dataset` consumes it: the
`events` cell (set only on the final pitch of a plate appearance) and
the raw `balls` / `strikes` cells, each given by its numeric parse
result. -/
structure RawRow where
  events : Option (List Char)
  balls : Option ℚ
  strikes : Option ℚ

/-- One loaded plate-appearance record: `events` kept, `outcome`
added, counts coerced to integers. -/
structure PARecord where
  events : Option (List Char)
  outcome : String
  balls : Int
  strikes : Int
deriving DecidableEq

/-- `load_pa_dataset` from `pa_data.py`, applied to the raw rows the
Statcast fetch returned: keep only rows whose `events` cell is set
(`fetch_statcast_pas`), add the outcome label
(`map_events_to_outcomes`), and coerce the `balls` and `strikes`
columns. -/
def load_pa_dataset (raw : List RawRow) : List PARecord :=
  (raw.filter (fun r => r.events.isSome)).map (fun r =>
    { events := r.events
      outcome := _event_to_outcome r.events
      balls := coerce_count r.balls
      strikes := coerce_count r.strikes })

/-- C7 counterexample: a raw row whose `balls` cell parses to the
(negative) number -1 is loaded with `balls = -1`: the coercion never
clamps, so the loaded count field is not non-negative. -/
theorem c7_negative_count_counterexample :
    ((load_pa_dataset [⟨some ("single".data), some (-1), some 0⟩]).map
        (fun rec => rec.balls)) = [-1] ∧ (-1 : Int) < 0 := by
  decide

/-- C7 (amended): the loaded ball/strike count fields are integers and
any unparseable cell is coerced to zero rather than failing; they are
moreover non-negative whenever every parseable raw cell value is
non-negative (the coercion itself never clamps negative values). -/
theorem c7_count_coercion (raw : List RawRow)
    (hnn : ∀ r ∈ raw, (∀ q, r.balls = some q → 0 ≤ q) ∧
      (∀ q, r.strikes = some q → 0 ≤ q)) :
    coerce_count none = 0 ∧
      ∀ rec ∈ load_pa_dataset raw, 0 ≤ rec.balls ∧ 0 ≤ rec.strikes := by
  refine ⟨rfl, ?_⟩
  intro rec hrec
  simp only [load_pa_dataset, List.mem_map, List.mem_filter] at hrec
  obtain ⟨r, ⟨hr, _⟩, rfl⟩ := hrec
  have hcoerce : ∀ v : Option ℚ, (∀ q, v = some q → 0 ≤ q) → 0 ≤ coerce_count v := by
    intro v hv
    match v with
    | none => exact le_refl 0
    | some q =>
      have hq : 0 ≤ q := hv q rfl
      exact Int.tdiv_nonneg (Rat.num_nonneg.mpr hq) (Int.natCast_nonneg _)
  exact ⟨hcoerce r.balls (hnn r hr).1, hcoerce r.strikes (hnn r hr).2⟩

/-- C7 witness: an unparseable `balls` cell loads as 0 and a
fractional non-negative `strikes` cell loads as a non-negative
integer. -/
theorem c7_count_coercion_witness :
    coerce_count none = 0 ∧
      ∀ rec ∈ load_pa_dataset [⟨some ("walk".data), none, some (3/2)⟩],
        0 ≤ rec.balls ∧ 0 ≤ rec.strikes :=
  c7_count_coercion [⟨some ("walk".data), none, some (3/2)⟩]
    (by
      intro r hr
      simp only [List.mem_cons, List.not_mem_nil, or_false] at hr
      subst hr
      refine ⟨fun q h => by simp at h, fun q h => ?_⟩
      simp only [Option.some.injEq] at h
      rw [← h]
      norm_num)

/-! ### `pa_model.py`: Feature Builder and Trainer -/

/-- Python `str.upper` on one character (ASCII fragment), as used by
`.str.upper()` in `build_features`. -/
def pyToUpper (c : Char) : Char :=
  if 97 ≤ c.toNat ∧ c.toNat ≤ 122 then Char.ofNat (c.toNat - 32) else c

/-- Python `s.upper()` (ASCII fragment). -/
def pyUpper (s : List Char) : List Char := s.map pyToUpper

/-- The derived count state of `build_features` (and of
`get_outcome_probs` in `sim_rates.py`): `count_id = balls*4 +
strikes`. -/
def count_id (balls strikes : Int) : Int := balls * 4 + strikes

/-- The numeric feature vector one row contributes in
`build_features`: count state, handedness-match indicator, and the
optional situational columns (numeric, zero-filled). -/
structure FeatureRow where
  count_id : Int
  platoon_same : Int
  inning : ℚ
  outs_when_up : ℚ
deriving DecidableEq

/-- A row of the dataframe `build_features` consumes: raw numeric
cells by parse result, handedness strings, and the outcome label. -/
structure TrainRow where
  balls : Option ℚ
  strikes : Option ℚ
  stand : List Char
  p_throws : List Char
  inning : Option ℚ
  outs_when_up : Option ℚ
  outcome : String

/-- `pd.to_numeric(x, errors="coerce").fillna(0)` on one optional
situational cell (no integer cast). -/
def coerce_fill_zero (v : Option ℚ) : ℚ := v.getD 0

/-- The feature vector and label of one row in `build_features`:
counts re-coerced, `count_id` derived, `platoon_same = 1` iff the
uppercased handedness strings agree, situational columns zero-filled. -/
def build_features_row (r : TrainRow) : FeatureRow × String :=
  (⟨count_id (coerce_count r.balls) (coerce_count r.strikes),
    if pyUpper r.stand == pyUpper r.p_throws then 1 else 0,
    coerce_fill_zero r.inning,
    coerce_fill_zero r.outs_when_up⟩, r.outcome)

/-- `build_features` from `pa_model.py`: the feature matrix `X` and
label vector `y`, rowwise. -/
def build_features (pas : List TrainRow) : List (FeatureRow × String) :=
  pas.map build_features_row

/-- `train_model` from `pa_model.py`, embedded up to the hand-off to
the external XGBoost fit: build features and labels, keep only rows
whose label is one of the eight categories (`y.isin(OUTCOME_ORDER)`),
and raise the source's `ValueError` when no row remains; on success
the value carried is the exact row set given to the label encoder and
classifier fit. -/
def train_model (pas : List TrainRow) :
    Except String (List (FeatureRow × String)) :=
  let valid := (build_features pas).filter (fun xy => OUTCOME_ORDER.contains xy.2)
  if valid.isEmpty then
    Except.error
      "No valid rows after building features. Check PA data and outcome mapping."
  else Except.ok valid

/-- C6: training aborts with the explicit data-availability
`ValueError` exactly when zero rows with a known-category label remain
after feature building, and otherwise proceeds on precisely the rows
whose label is one of the eight categories — all others are dropped
before training. -/
theorem c6_train_drops_invalid_and_aborts_on_empty (pas : List TrainRow) :
    ((build_features pas).filter (fun xy => OUTCOME_ORDER.contains xy.2) = [] →
      train_model pas = Except.error
        "No valid rows after building features. Check PA data and outcome mapping.") ∧
    ((build_features pas).filter (fun xy => OUTCOME_ORDER.contains xy.2) ≠ [] →
      train_model pas = Except.ok
        ((build_features pas).filter (fun xy => OUTCOME_ORDER.contains xy.2))) := by
  constructor
  · intro h
    simp only [train_model, h]
    rfl
  · intro h
    obtain ⟨x, xs, hx⟩ : ∃ x xs,
        (build_features pas).filter (fun xy => OUTCOME_ORDER.contains xy.2) = x :: xs := by
      cases hE : (build_features pas).filter (fun xy => OUTCOME_ORDER.contains xy.2) with
      | nil => exact absurd hE h
      | cons a l => exact ⟨a, l, rfl⟩
    simp only [train_model, hx]
    rfl

/-- C6 witness: a single unknown-label row aborts training with the
data-availability error, and a single walk row trains on exactly that
row. -/
theorem c6_train_drops_invalid_and_aborts_on_empty_witness :
    train_model [⟨some 0, some 0, ("R".data), ("R".data), none, none, "caught_stealing_2b"⟩] =
        Except.error
          "No valid rows after building features. Check PA data and outcome mapping." ∧
      train_model [⟨some 1, some 2, ("R".data), ("L".data), none, none, "Walk"⟩] =
        Except.ok [(⟨6, 0, 0, 0⟩, "Walk")] :=
  ⟨(c6_train_drops_invalid_and_aborts_on_empty
      [⟨some 0, some 0, ("R".data), ("R".data), none, none, "caught_stealing_2b"⟩]).1
      (by decide),
   by
    rw [(c6_train_drops_invalid_and_aborts_on_empty
      [⟨some 1, some 2, ("R".data), ("L".data), none, none, "Walk"⟩]).2 (by decide)]
    rfl⟩

/-- C8: on the count grid {0..3}×{0..2}, `count_id` lies in [0, 14]
and is injective: distinct (balls, strikes) pairs give distinct
values. -/
theorem c8_count_id_injective_in_range (b s b' s' : Int)
    (hb0 : 0 ≤ b) (hb3 : b ≤ 3) (hs0 : 0 ≤ s) (hs2 : s ≤ 2)
    (hb0' : 0 ≤ b') (hb3' : b' ≤ 3) (hs0' : 0 ≤ s') (hs2' : s' ≤ 2) :
    (0 ≤ count_id b s ∧ count_id b s ≤ 14) ∧
      (count_id b s = count_id b' s' → b = b' ∧ s = s') := by
  simp only [count_id]
  omega

/-- C8 witness: the full count 3-2 derives `count_id = 14`, the top of
the range, and the injectivity instance holds there. -/
theorem c8_count_id_injective_in_range_witness :
    ((0 ≤ count_id 3 2 ∧ count_id 3 2 ≤ 14) ∧
      (count_id 3 2 = count_id 3 2 → (3 : Int) = 3 ∧ (2 : Int) = 2)) ∧
      count_id 3 2 = 14 :=
  ⟨c8_count_id_injective_in_range 3 2 3 2 (by decide) (by decide) (by decide)
      (by decide) (by decide) (by decide) (by decide) (by decide),
   by decide⟩

end BaseballStats
